import Mathlib

/-!
# Verification of the monaibuilder configuration builder

Shallow embedding of `monaibuilder` (files `extended_spytula_builder.py`,
`builder.py`).  The builder's document is a Python dict whose values are
scalars, lists or nested dicts; Python dicts preserve insertion order, and
assigning to an existing key keeps its position.  We model a document as an
association list with Python-dict update semantics (`setKey`).

The underlying `SpytulaBuilder` base class is an external dependency
(`spytula.builder`), consumed as a black box.  Its observable behaviour,
as fixed by the spec boundary description and pinned down by the repository's
own use of it, is:

* `attribute(key, value)` — `self._data[key] = value` (dict assignment);
* `node(key)` — context manager yielding a fresh empty builder; on normal
  exit assigns the accumulated sub-dict into `self._data[key]`;
* `nodes(key)` — assigns a fresh empty list into `self._data[key]` at entry
  (the repository reads `_data[key]` immediately after entering, so entry
  assignment is forced), and yields a factory; each factory call appends a
  fresh dict to that list and yields a builder aliasing it;
* `append_value(key, value)` — `self._data[key].append(value)`.

`ExtendedSpytulaBuilder` overrides `node`/`nodes` with idempotent-reuse
variants (aliasing the existing sub-dict / appending to the existing list);
those overrides are embedded here directly from the source.  Cases where the
Python code would raise a `TypeError`/`AttributeError` before mutating
anything (opening a node over a non-dict value, `append_value` on a
non-list) are modelled as leaving the document unchanged; no theorem below
relies on those cases.
-/

namespace Monaibuilder

/-- A JSON-like value as stored in the builder's `_data`: scalars, ordered
lists, and nested mappings (insertion-ordered association lists). -/
inductive Value where
  | str : String → Value
  | int : Int → Value
  | bool : Bool → Value
  | list : List Value → Value
  | map : List (String × Value) → Value
deriving Repr

/-- A document (the builder's `_data`): an insertion-ordered mapping from
string keys to values. -/
abbrev Doc := List (String × Value)

/-- Python dict lookup `d[k]` (as an option). -/
def lookup : Doc → String → Option Value
  | [], _ => none
  | (k', v) :: rest, k => if k' = k then some v else lookup rest k

/-- Python dict assignment `d[k] = v`: replaces the value in place if the key
exists (keeping its position in insertion order), otherwise appends the new
binding at the end.  This is `SpytulaBuilder.attribute(k, v)`. -/
def setKey : Doc → String → Value → Doc
  | [], k, v => [(k, v)]
  | (k', v') :: rest, k, v =>
      if k' = k then (k', v) :: rest else (k', v') :: setKey rest k v

/-- Embeds `ExtendedSpytulaBuilder.is_exist_node(key)`: `key in self._data.keys()`. -/
def is_exist_node (d : Doc) (k : String) : Bool :=
  (lookup d k).isSome

/-- Embeds `ExtendedSpytulaBuilder.node(key)`, denotationally: the body `f` runs on
the sub-document scoped at `key`.  If `key` is absent, a fresh empty builder
is used and its data written back at scope exit (`super().node`); if `key`
holds a mapping, the body mutates that mapping in place (the override aliases
`self._data[key]`).  A `key` holding a non-mapping value makes the Python
body raise before mutating; modelled as the unchanged document. -/
def node (d : Doc) (k : String) (f : Doc → Doc) : Doc :=
  match lookup d k with
  | none => setKey d k (.map (f []))
  | some (.map m) => setKey d k (.map (f m))
  | some _ => d

/-- Embeds `ExtendedSpytulaBuilder.nodes(key)` used with a sequence of factory
calls, each populating one fresh node: `items` are the sub-documents built by
the successive `add_transform()` calls.  If `key` is absent, a fresh list is
created (`super().nodes`); if `key` holds a list, the new nodes are appended
to it in place, preserving prior elements; if `key` holds a non-list value,
the override falls through to `super().nodes`, which assigns a fresh list at
entry (overwriting the old value). -/
def nodes (d : Doc) (k : String) (items : List Doc) : Doc :=
  match lookup d k with
  | some (.list l) => setKey d k (.list (l ++ items.map .map))
  | some _ => setKey d k (.list (items.map .map))
  | none => setKey d k (.list (items.map .map))

/-- Embeds `SpytulaBuilder.append_value(key, value)`: `self._data[key].append(value)`.
On a non-list value Python raises before mutating; modelled as unchanged. -/
def append_value (d : Doc) (k : String) (v : Value) : Doc :=
  match lookup d k with
  | some (.list l) => setKey d k (.list (l ++ [v]))
  | _ => d

/-! ## Basic lemmas about `lookup` and `setKey` -/

theorem lookup_setKey_self (d : Doc) (k : String) (v : Value) :
    lookup (setKey d k v) k = some v := by
  induction d with
  | nil => simp [setKey, lookup]
  | cons p rest ih =>
      obtain ⟨k', v'⟩ := p
      by_cases h : k' = k <;> simp [setKey, lookup, h, ih]

theorem lookup_setKey_ne (d : Doc) (k k' : String) (v : Value) (h : k ≠ k') :
    lookup (setKey d k v) k' = lookup d k' := by
  induction d with
  | nil => simp [setKey, lookup, h]
  | cons p rest ih =>
      obtain ⟨k₀, v₀⟩ := p
      by_cases h0 : k₀ = k
      · subst h0
        simp [setKey, lookup, h]
      · simp [setKey, lookup, h0, ih]

theorem lookup_node_ne (d : Doc) (k k' : String) (f : Doc → Doc) (h : k ≠ k') :
    lookup (node d k f) k' = lookup d k' := by
  unfold node
  cases hl : lookup d k with
  | none => exact lookup_setKey_ne d k k' _ h
  | some v =>
      cases v <;> simp [lookup_setKey_ne d k k' _ h]

theorem is_exist_setKey_self (d : Doc) (k : String) (v : Value) :
    is_exist_node (setKey d k v) k = true := by
  simp [is_exist_node, lookup_setKey_self]

theorem is_exist_setKey_ne (d : Doc) (k k' : String) (v : Value) (h : k ≠ k') :
    is_exist_node (setKey d k v) k' = is_exist_node d k' := by
  simp [is_exist_node, lookup_setKey_ne d k k' v h]

/-! ## `BundleBuilder` operations (`builder.py`)

Keyword-argument dictionaries (`vargs`) are passed as insertion-ordered
lists of pairs, matching Python dict iteration order. -/

/-- Embeds `BundleBuilder._add_item(builder, name, vargs)`: sets `_target_` to
`name`, then each keyword argument in iteration order, on the given
sub-document. -/
def add_item_fields (m : Doc) (name : String) (vargs : Doc) : Doc :=
  vargs.foldl (fun acc p => setKey acc p.1 p.2) (setKey m "_target_" (.str name))

/-- The fresh item document `_add_item` builds inside a newly created node. -/
def mk_item (name : String) (vargs : Doc) : Doc :=
  add_item_fields [] name vargs

/-- Embeds `BundleBuilder.attribute(name, value)` / `add_config_variable`. -/
def attribute_top (d : Doc) (name : String) (v : Value) : Doc :=
  setKey d name v

/-- Embeds `BundleBuilder.add_sectioned_item(section_name, name, vargs)`: opens the
section with the idempotent `node` and writes the item fields into it. -/
def add_sectioned_item (d : Doc) (section_name name : String) (vargs : Doc) : Doc :=
  node d section_name (fun sb => add_item_fields sb name vargs)

/-- Embeds `BundleBuilder.add_train_item(section_name, name, vargs)`: idempotently
opens `train`, idempotently opens the section inside it, writes the item. -/
def add_train_item (d : Doc) (section_name name : String) (vargs : Doc) : Doc :=
  node d "train" (fun tb => node tb section_name (fun sb => add_item_fields sb name vargs))

/-- Embeds `BundleBuilder.add_validate_item(section_name, name, vargs)`. -/
def add_validate_item (d : Doc) (section_name name : String) (vargs : Doc) : Doc :=
  node d "validate" (fun vb => node vb section_name (fun sb => add_item_fields sb name vargs))

/-- The length of the list at `phase.key` at the moment
`add_deterministic_transform` / `add_postprocessing_transform` records
`train_transform_index`: the code reads
`len(train_builder._data[key])` after `nodes(key)` has ensured the key
holds a list (a fresh empty list when the key was absent or held a
non-list) and before the new item is appended. -/
def transform_index (d : Doc) (phase key : String) : Nat :=
  match lookup d phase with
  | some (.map t) =>
      match lookup t key with
      | some (.list l) => l.length
      | _ => 0
  | _ => 0

/-- Embeds `BundleBuilder.add_deterministic_transform(name, vargs, is_train, is_validate)`.
Three cases as in the source: train append (recording the pre-append index);
then either a cross-reference string appended to
`validate.deterministic_transforms` (created raw if absent) when both flags
are set, or a fresh item appended there when only `is_validate` is set. -/
def add_deterministic_transform (d : Doc) (name : String) (vargs : Doc)
    (is_train : Bool) (is_validate : Bool) : Doc :=
  let idx := transform_index d "train" "deterministic_transforms"
  let d1 := if is_train then
      node d "train" (fun tb => nodes tb "deterministic_transforms" [mk_item name vargs])
    else d
  if is_train && is_validate then
    node d1 "validate" (fun vb =>
      let vb1 := if is_exist_node vb "deterministic_transforms" then vb
        else setKey vb "deterministic_transforms" (.list [])
      append_value vb1 "deterministic_transforms"
        (.str ("@train#deterministic_transforms#" ++ toString idx)))
  else if is_validate then
    node d1 "validate" (fun vb =>
      nodes vb "deterministic_transforms" [mk_item name vargs])
  else d1

/-- Embeds `BundleBuilder.add_random_transform(name, vargs)`: appends to
`train.random_transforms` only. -/
def add_random_transform (d : Doc) (name : String) (vargs : Doc) : Doc :=
  node d "train" (fun tb => nodes tb "random_transforms" [mk_item name vargs])

/-- Embeds `BundleBuilder.add_postprocessing_transform(name, vargs, is_train,
is_validate)`: same three-case structure as `add_deterministic_transform`,
over `postprocessing_transforms`. -/
def add_postprocessing_transform (d : Doc) (name : String) (vargs : Doc)
    (is_train : Bool) (is_validate : Bool) : Doc :=
  let idx := transform_index d "train" "postprocessing_transforms"
  let d1 := if is_train then
      node d "train" (fun tb => nodes tb "postprocessing_transforms" [mk_item name vargs])
    else d
  if is_train && is_validate then
    node d1 "validate" (fun vb =>
      let vb1 := if is_exist_node vb "postprocessing_transforms" then vb
        else setKey vb "postprocessing_transforms" (.list [])
      append_value vb1 "postprocessing_transforms"
        (.str ("@train#postprocessing_transforms#" ++ toString idx)))
  else if is_validate then
    node d1 "validate" (fun vb =>
      nodes vb "postprocessing_transforms" [mk_item name vargs])
  else d1

/-- Embeds `BundleBuilder.add_section_handler(section_name, name, vargs)`. -/
def add_section_handler (d : Doc) (section_name name : String) (vargs : Doc) : Doc :=
  node d section_name (fun sb => nodes sb "handlers" [mk_item name vargs])

/-! ## Finalization (`set_train_section` / `set_validate_section`) -/

/-- The `_check_keys` list of `set_train_section`. -/
def train_check_keys : List String :=
  ["preprocessing", "dataset", "dataloader", "postprocessing",
   "handlers", "key_metric", "trainer", "inferer"]

/-- The `_check_keys` list of `set_validate_section`. -/
def validate_check_keys : List String :=
  ["preprocessing", "postprocessing", "dataset", "dataloader",
   "handlers", "key_metric", "evaluator", "inferer"]

/-- The composed `preprocessing` item written by `set_train_section`. -/
def train_preprocessing_item : Value :=
  .map [("_target_", .str "Compose"),
        ("transforms", .str "$@train#deterministic_transforms + @train#random_transforms")]

/-- The composed `postprocessing` item written by `set_train_section`. -/
def train_postprocessing_item : Value :=
  .map [("_target_", .str "Compose"),
        ("transforms", .str "$@train#postprocessing_transforms")]

/-- The composed `preprocessing` item written by `set_validate_section`. -/
def validate_preprocessing_item : Value :=
  .map [("_target_", .str "Compose"),
        ("transforms", .str "$@validate#deterministic_transforms")]

/-- The composed `postprocessing` item written by `set_validate_section`. -/
def validate_postprocessing_item : Value :=
  .map [("_target_", .str "Compose"),
        ("transforms", .str "$@validate#postprocessing_transforms")]

/-- The guarded defaulting pattern
`if not builder.is_exist_node(k): builder.attribute(k, list())`. -/
def ensure_list (d : Doc) (k : String) : Doc :=
  if is_exist_node d k then d else setKey d k (.list [])

/-- The mutations `set_train_section` performs inside `node("train")`:
default `deterministic_transforms` and `random_transforms` to `[]` when
absent; overwrite `preprocessing` and `postprocessing` with the composed
items; set `additional_metrics` to `[]` unconditionally (the source has no
`is_exist_node` guard here, unlike `set_validate_section`). -/
def finalize_train_map (t : Doc) : Doc :=
  setKey
    (setKey
      (setKey (ensure_list (ensure_list t "deterministic_transforms") "random_transforms")
        "preprocessing" train_preprocessing_item)
      "postprocessing" train_postprocessing_item)
    "additional_metrics" (.list [])

/-- The mutations `set_validate_section` performs inside `node("validate")`:
default `deterministic_transforms` to `[]` when absent; overwrite
`preprocessing` and `postprocessing`; default `additional_metrics` to `[]`
when absent (guarded in this phase). -/
def finalize_validate_map (v : Doc) : Doc :=
  ensure_list
    (setKey
      (setKey (ensure_list v "deterministic_transforms")
        "preprocessing" validate_preprocessing_item)
      "postprocessing" validate_postprocessing_item)
    "additional_metrics"

/-- The list interpolated into the assertion message:
`[k for v, k in zip(checks, _check_keys) if not v]` — every check key
absent from the finalized phase map, in `_check_keys` order. -/
def missing_keys (t : Doc) (keys : List String) : List String :=
  keys.filter (fun k => !(is_exist_node t k))

/-- Embeds `BundleBuilder.set_train_section(config)`.  Returns the post-state
document and the list of missing keys the assertion message would name; the
call raises `AssertionError` exactly when that list is nonempty.  The unused
`config` parameter is kept: the source never reads it.  When `train` holds a
mapping, the mutations alias `self._data["train"]`, so they persist even
when the assertion fires; when `train` is absent, `super().node`'s
write-back is skipped by the propagating exception, so a failing call leaves
the document unchanged.  A non-mapping `train` value makes the body raise a
`TypeError` before any mutation (modelled: unchanged, no missing-key list). -/
def set_train_section (d : Doc) (config : Doc) : Doc × List String :=
  match lookup d "train" with
  | some (.map m) =>
      let t := finalize_train_map m
      (setKey d "train" (.map t), missing_keys t train_check_keys)
  | none =>
      let t := finalize_train_map []
      let missing := missing_keys t train_check_keys
      (if missing.isEmpty then setKey d "train" (.map t) else d, missing)
  | some _ => (d, [])

/-- Embeds `BundleBuilder.set_validate_section(config)`; symmetric to
`set_train_section` with the validate key set and guarded
`additional_metrics`. -/
def set_validate_section (d : Doc) (config : Doc) : Doc × List String :=
  match lookup d "validate" with
  | some (.map m) =>
      let v := finalize_validate_map m
      (setKey d "validate" (.map v), missing_keys v validate_check_keys)
  | none =>
      let v := finalize_validate_map []
      let missing := missing_keys v validate_check_keys
      (if missing.isEmpty then setKey d "validate" (.map v) else d, missing)
  | some _ => (d, [])

/-! ## Further helper lemmas -/

/-- The value at `phase.s` when `phase` holds a mapping (otherwise `none`). -/
def phase_field (d : Doc) (phase s : String) : Option Value :=
  match lookup d phase with
  | some (.map m) => lookup m s
  | _ => none

theorem lookup_foldl_setKey_not_mem (v : Doc) (m : Doc) (k : String)
    (h : ∀ p ∈ v, p.1 ≠ k) :
    lookup (v.foldl (fun acc p => setKey acc p.1 p.2) m) k = lookup m k := by
  induction v generalizing m with
  | nil => rfl
  | cons p rest ih =>
      have hp : p.1 ≠ k := h p (List.mem_cons_self p rest)
      have hrest : ∀ q ∈ rest, q.1 ≠ k := fun q hq => h q (List.mem_cons_of_mem p hq)
      simp only [List.foldl_cons]
      rw [ih _ hrest, lookup_setKey_ne _ _ _ _ hp]

theorem lookup_add_item_fields_ne (m : Doc) (name : String) (v : Doc) (k : String)
    (hk : k ≠ "_target_") (hv : ∀ p ∈ v, p.1 ≠ k) :
    lookup (add_item_fields m name v) k = lookup m k := by
  unfold add_item_fields
  rw [lookup_foldl_setKey_not_mem _ _ _ hv,
    lookup_setKey_ne _ _ _ _ (Ne.symm hk)]

theorem lookup_add_item_fields_target (m : Doc) (name : String) (v : Doc)
    (hv : ∀ p ∈ v, p.1 ≠ "_target_") :
    lookup (add_item_fields m name v) "_target_" = some (.str name) := by
  unfold add_item_fields
  rw [lookup_foldl_setKey_not_mem _ _ _ hv, lookup_setKey_self]

theorem phase_field_add_train_item (d : Doc) (sec name : String) (v : Doc)
    (s' : String) (h : s' ≠ sec) :
    phase_field (add_train_item d sec name v) "train" s' = phase_field d "train" s' := by
  unfold add_train_item phase_field
  cases hl : lookup d "train" with
  | none =>
      simp only [node, hl, lookup_setKey_self, lookup, setKey]
      simp [Ne.symm h]
  | some val =>
      cases val with
      | map m =>
          simp only [node, hl, lookup_setKey_self]
          cases hm : lookup m sec with
          | none => simp [lookup_setKey_ne _ _ _ _ (Ne.symm h)]
          | some w =>
              cases w <;> simp [lookup_setKey_ne _ _ _ _ (Ne.symm h), hl]
      | str s => simp [node, hl]
      | int n => simp [node, hl]
      | bool b => simp [node, hl]
      | list l => simp [node, hl]

theorem phase_field_add_validate_item (d : Doc) (sec name : String) (v : Doc)
    (s' : String) (h : s' ≠ sec) :
    phase_field (add_validate_item d sec name v) "validate" s' = phase_field d "validate" s' := by
  unfold add_validate_item phase_field
  cases hl : lookup d "validate" with
  | none =>
      simp only [node, hl, lookup_setKey_self, lookup, setKey]
      simp [Ne.symm h]
  | some val =>
      cases val with
      | map m =>
          simp only [node, hl, lookup_setKey_self]
          cases hm : lookup m sec with
          | none => simp [lookup_setKey_ne _ _ _ _ (Ne.symm h)]
          | some w =>
              cases w <;> simp [lookup_setKey_ne _ _ _ _ (Ne.symm h), hl]
      | str s => simp [node, hl]
      | int n => simp [node, hl]
      | bool b => simp [node, hl]
      | list l => simp [node, hl]

theorem lookup_ensure_list_ne (d : Doc) (k k' : String) (h : k ≠ k') :
    lookup (ensure_list d k) k' = lookup d k' := by
  unfold ensure_list
  split
  · rfl
  · exact lookup_setKey_ne _ _ _ _ h

theorem is_exist_ensure_list_ne (d : Doc) (k k' : String) (h : k ≠ k') :
    is_exist_node (ensure_list d k) k' = is_exist_node d k' := by
  simp [is_exist_node, lookup_ensure_list_ne d k k' h]

theorem lookup_ensure_list_present (d : Doc) (k : String) (v : Value)
    (h : lookup d k = some v) :
    lookup (ensure_list d k) k = some v := by
  unfold ensure_list
  rw [if_pos (by simp [is_exist_node, h])]
  exact h

theorem lookup_ensure_list_absent (d : Doc) (k : String) (h : lookup d k = none) :
    lookup (ensure_list d k) k = some (.list []) := by
  unfold ensure_list
  rw [if_neg (by simp [is_exist_node, h])]
  exact lookup_setKey_self _ _ _

theorem is_exist_finalize_train_other (m : Doc) (k : String)
    (h1 : k ≠ "deterministic_transforms") (h2 : k ≠ "random_transforms")
    (h3 : k ≠ "preprocessing") (h4 : k ≠ "postprocessing")
    (h5 : k ≠ "additional_metrics") :
    is_exist_node (finalize_train_map m) k = is_exist_node m k := by
  unfold finalize_train_map
  rw [is_exist_setKey_ne _ _ _ _ (Ne.symm h5), is_exist_setKey_ne _ _ _ _ (Ne.symm h4),
    is_exist_setKey_ne _ _ _ _ (Ne.symm h3), is_exist_ensure_list_ne _ _ _ (Ne.symm h2),
    is_exist_ensure_list_ne _ _ _ (Ne.symm h1)]

theorem is_exist_finalize_train_pre (m : Doc) :
    is_exist_node (finalize_train_map m) "preprocessing" = true := by
  unfold finalize_train_map
  rw [is_exist_setKey_ne _ _ _ _ (by decide), is_exist_setKey_ne _ _ _ _ (by decide),
    is_exist_setKey_self]

theorem is_exist_finalize_train_post (m : Doc) :
    is_exist_node (finalize_train_map m) "postprocessing" = true := by
  unfold finalize_train_map
  rw [is_exist_setKey_ne _ _ _ _ (by decide), is_exist_setKey_self]

theorem is_exist_finalize_validate_other (m : Doc) (k : String)
    (h1 : k ≠ "deterministic_transforms")
    (h3 : k ≠ "preprocessing") (h4 : k ≠ "postprocessing")
    (h5 : k ≠ "additional_metrics") :
    is_exist_node (finalize_validate_map m) k = is_exist_node m k := by
  unfold finalize_validate_map
  rw [is_exist_ensure_list_ne _ _ _ (Ne.symm h5), is_exist_setKey_ne _ _ _ _ (Ne.symm h4),
    is_exist_setKey_ne _ _ _ _ (Ne.symm h3), is_exist_ensure_list_ne _ _ _ (Ne.symm h1)]

theorem is_exist_finalize_validate_pre (m : Doc) :
    is_exist_node (finalize_validate_map m) "preprocessing" = true := by
  unfold finalize_validate_map
  rw [is_exist_ensure_list_ne _ _ _ (by decide), is_exist_setKey_ne _ _ _ _ (by decide),
    is_exist_setKey_self]

theorem is_exist_finalize_validate_post (m : Doc) :
    is_exist_node (finalize_validate_map m) "postprocessing" = true := by
  unfold finalize_validate_map
  rw [is_exist_ensure_list_ne _ _ _ (by decide), is_exist_setKey_self]

/-! ## Infrastructure for the cross-reference claim (C3) -/

/-- The cross-reference string appended to
`validate.deterministic_transforms` for the train item at index `i`. -/
def det_ref (i : Nat) : Value :=
  .str ("@train#deterministic_transforms#" ++ toString i)

/-- Shape of the document after `k ≥ 1` calls of
`add_deterministic_transform(_, _, is_train=True, is_validate=True)` on a
fresh builder: the train items accumulated so far and the cross-reference
strings in validate. -/
def det_state (items refs : List Value) : Doc :=
  [("train", .map [("deterministic_transforms", .list items)]),
   ("validate", .map [("deterministic_transforms", .list refs)])]

/-- A sequence of `add_deterministic_transform(name, vargs, True, True)`
calls, folded over the document. -/
def add_det_fold (ps : List (String × Doc)) (d : Doc) : Doc :=
  ps.foldl (fun a p => add_deterministic_transform a p.1 p.2 true true) d

theorem add_det_step (items refs : List Value) (n : String) (v : Doc) :
    add_deterministic_transform (det_state items refs) n v true true
      = det_state (items ++ [.map (mk_item n v)]) (refs ++ [det_ref items.length]) := rfl

theorem add_det_first (n : String) (v : Doc) :
    add_deterministic_transform ([] : Doc) n v true true
      = det_state [.map (mk_item n v)] [det_ref 0] := rfl

theorem add_det_fold_state (ps : List (String × Doc)) (items refs : List Value) :
    ∃ items', items'.length = ps.length ∧
      add_det_fold ps (det_state items refs)
        = det_state (items ++ items')
            (refs ++ (List.range' items.length ps.length).map det_ref) := by
  induction ps generalizing items refs with
  | nil => exact ⟨[], rfl, by simp [add_det_fold]⟩
  | cons p rest ih =>
      obtain ⟨its, hlen, heq⟩ :=
        ih (items ++ [.map (mk_item p.1 p.2)]) (refs ++ [det_ref items.length])
      refine ⟨.map (mk_item p.1 p.2) :: its, by simp [hlen], ?_⟩
      have hstep : add_det_fold (p :: rest) (det_state items refs)
          = add_det_fold rest
              (det_state (items ++ [.map (mk_item p.1 p.2)]) (refs ++ [det_ref items.length])) := by
        simp only [add_det_fold, List.foldl_cons, add_det_step]
      rw [hstep, heq]
      have e1 : (items ++ [Value.map (mk_item p.1 p.2)]) ++ its
          = items ++ Value.map (mk_item p.1 p.2) :: its := by simp
      have e2 : (refs ++ [det_ref items.length])
            ++ (List.range' (items ++ [Value.map (mk_item p.1 p.2)]).length rest.length).map det_ref
          = refs ++ (List.range' items.length (rest.length + 1)).map det_ref := by
        rw [List.range'_succ]
        simp
      rw [e1, e2]
      simp

/-! ## Claim theorems -/

/-- C1: opening the node `k` twice, writing one distinct field in each
opening, yields a mapping at `k` containing both fields — neither opening
discards the other's sibling fields; in particular `add_train_item` /
`add_validate_item` called twice with the same `(phase, section)` pair
augment rather than replace sibling state in the phase subtree. -/
theorem node_reuse_idempotent (d : Doc) (k fa fb : String) (va vb : Value)
    (hne : fa ≠ fb)
    (hk : lookup d k = none ∨ ∃ m, lookup d k = some (.map m)) :
    (∃ m', lookup (node (node d k (fun t => setKey t fa va)) k
        (fun t => setKey t fb vb)) k = some (.map m') ∧
      lookup m' fa = some va ∧ lookup m' fb = some vb) ∧
    (∀ (d' : Doc) (sec n₁ n₂ : String) (v₁ v₂ : Doc) (s' : String), s' ≠ sec →
      phase_field (add_train_item (add_train_item d' sec n₁ v₁) sec n₂ v₂) "train" s'
        = phase_field d' "train" s') ∧
    (∀ (d' : Doc) (sec n₁ n₂ : String) (v₁ v₂ : Doc) (s' : String), s' ≠ sec →
      phase_field (add_validate_item (add_validate_item d' sec n₁ v₁) sec n₂ v₂) "validate" s'
        = phase_field d' "validate" s') := by
  refine ⟨?_, ?_, ?_⟩
  · rcases hk with hk | ⟨m, hk⟩
    · refine ⟨setKey (setKey [] fa va) fb vb, ?_, ?_, ?_⟩
      · simp only [node, hk, lookup_setKey_self]
      · rw [lookup_setKey_ne _ _ _ _ (Ne.symm hne), lookup_setKey_self]
      · rw [lookup_setKey_self]
    · refine ⟨setKey (setKey m fa va) fb vb, ?_, ?_, ?_⟩
      · simp only [node, hk, lookup_setKey_self]
      · rw [lookup_setKey_ne _ _ _ _ (Ne.symm hne), lookup_setKey_self]
      · rw [lookup_setKey_self]
  · intro d' sec n₁ n₂ v₁ v₂ s' hs
    rw [phase_field_add_train_item _ _ _ _ _ hs, phase_field_add_train_item _ _ _ _ _ hs]
  · intro d' sec n₁ n₂ v₁ v₂ s' hs
    rw [phase_field_add_validate_item _ _ _ _ _ hs, phase_field_add_validate_item _ _ _ _ _ hs]

/-- C1 witness: concrete instance with `k = "train"`, fields `"a"`, `"b"`. -/
theorem node_reuse_idempotent_witness :
    (∃ m', lookup (node (node ([] : Doc) "train" (fun t => setKey t "a" (.int 1)))
        "train" (fun t => setKey t "b" (.int 2))) "train" = some (.map m') ∧
      lookup m' "a" = some (.int 1) ∧ lookup m' "b" = some (.int 2)) ∧
    phase_field (add_train_item (add_train_item [("train", .map [("sib", .int 7)])]
        "dataset" "A" []) "dataset" "B" []) "train" "sib"
      = phase_field [("train", .map [("sib", .int 7)])] "train" "sib" := by
  have h := node_reuse_idempotent [] "train" "a" "b" (.int 1) (.int 2)
    (by decide) (Or.inl rfl)
  exact ⟨h.1, h.2.1 [("train", .map [("sib", .int 7)])] "dataset" "A" "B" [] [] "sib" (by decide)⟩

/-- C2: opening the node-list `k` twice on a document where `k` is absent,
appending item `A` then item `B`, yields the list `[A, B]` in order; opening
an existing node-list never truncates it — the new nodes are appended after
the prior elements, whose positions are preserved. -/
theorem nodes_reuse_appends (d : Doc) (k : String) (A B : Doc) :
    (lookup d k = none →
      lookup (nodes (nodes d k [A]) k [B]) k = some (.list [.map A, .map B])) ∧
    (∀ (l : List Value) (items : List Doc), lookup d k = some (.list l) →
      lookup (nodes d k items) k = some (.list (l ++ items.map .map))) := by
  constructor
  · intro h
    simp [nodes, h, lookup_setKey_self]
  · intro l items h
    simp only [nodes, h, lookup_setKey_self]

/-- C2 witness: fresh key, two openings appending concrete items. -/
theorem nodes_reuse_appends_witness :
    lookup (nodes (nodes ([] : Doc) "k" [[("a", .int 1)]]) "k" [[("b", .int 2)]]) "k"
      = some (.list [.map [("a", .int 1)], .map [("b", .int 2)]]) :=
  (nodes_reuse_appends [] "k" [("a", .int 1)] [("b", .int 2)]).1 rfl

/-- C5 counterexample: `add_sectioned_item` called twice with the same
section does not leave only the second call's discriminator and kwargs —
the first call's kwarg `x` survives alongside the second call's fields,
because the section is opened with the idempotent `node`, not plainly
overwritten. -/
theorem add_sectioned_item_counterexample :
    lookup (add_sectioned_item (add_sectioned_item [] "s" "A" [("x", .int 1)])
        "s" "B" [("y", .int 2)]) "s"
      = some (.map [("_target_", .str "B"), ("x", .int 1), ("y", .int 2)]) ∧
    lookup (add_sectioned_item (add_sectioned_item [] "s" "A" [("x", .int 1)])
        "s" "B" [("y", .int 2)]) "s"
      ≠ some (.map [("_target_", .str "B"), ("y", .int 2)]) := by
  constructor
  · rfl
  · intro h
    rw [show lookup (add_sectioned_item (add_sectioned_item [] "s" "A" [("x", .int 1)])
        "s" "B" [("y", .int 2)]) "s"
      = some (.map [("_target_", .str "B"), ("x", .int 1), ("y", .int 2)]) from rfl] at h
    simp at h

/-- C5 (amended): calling `add_sectioned_item` twice with the same section
merges into the existing section mapping: the discriminator (and any
same-named kwargs) are overwritten individually, while fields of the
existing section not named by the call — in particular the first call's
distinct kwargs — are preserved. -/
theorem add_sectioned_item_merges (d : Doc) (sec name : String) (vargs m : Doc)
    (h : lookup d sec = some (.map m)) :
    ∃ m', lookup (add_sectioned_item d sec name vargs) sec = some (.map m') ∧
      ((∀ p ∈ vargs, p.1 ≠ "_target_") → lookup m' "_target_" = some (.str name)) ∧
      (∀ k, k ≠ "_target_" → (∀ p ∈ vargs, p.1 ≠ k) → lookup m' k = lookup m k) := by
  refine ⟨add_item_fields m name vargs, ?_, ?_, ?_⟩
  · simp only [add_sectioned_item, node, h, lookup_setKey_self]
  · intro hv
    exact lookup_add_item_fields_target m name vargs hv
  · intro k hk hv
    exact lookup_add_item_fields_ne m name vargs k hk hv

/-- C5 amended-theorem witness: the concrete two-call scenario. -/
theorem add_sectioned_item_merges_witness :
    ∃ m', lookup (add_sectioned_item (add_sectioned_item [] "s" "A" [("x", .int 1)])
        "s" "B" [("y", .int 2)]) "s" = some (.map m') ∧
      ((∀ p ∈ ([("y", Value.int 2)] : Doc), p.1 ≠ "_target_") →
        lookup m' "_target_" = some (.str "B")) ∧
      (∀ k, k ≠ "_target_" → (∀ p ∈ ([("y", Value.int 2)] : Doc), p.1 ≠ k) →
        lookup m' k = lookup [("_target_", Value.str "A"), ("x", Value.int 1)] k) :=
  add_sectioned_item_merges (add_sectioned_item [] "s" "A" [("x", .int 1)])
    "s" "B" [("y", .int 2)] [("_target_", .str "A"), ("x", .int 1)] rfl

/-- C9: `add_deterministic_transform` and `add_postprocessing_transform`
with `is_train = False` and `is_validate = False` are no-ops: the document
is returned unchanged for every state, name and kwargs. -/
theorem add_transform_both_false_noop (d : Doc) (name : String) (vargs : Doc) :
    add_deterministic_transform d name vargs false false = d ∧
    add_postprocessing_transform d name vargs false false = d :=
  ⟨rfl, rfl⟩

/-- C10: the `config` parameter of `set_train_section` and
`set_validate_section` has no effect: the source never reads it, so any two
arguments (including the shared default instance) yield identical results
and the identical missing-key outcome. -/
theorem set_section_config_irrelevant (d c c' : Doc) :
    set_train_section d c = set_train_section d c' ∧
    set_validate_section d c = set_validate_section d c' :=
  ⟨rfl, rfl⟩

/-- C3: after `N ≥ 1` calls to `add_deterministic_transform` with
`is_train = True` and `is_validate = True` on a fresh builder,
`validate.deterministic_transforms` is exactly the list of cross-reference
strings `@train#deterministic_transforms#0` … `#N-1` in insertion order —
no item mapping is duplicated into the validate list. -/
theorem validate_det_cross_refs (p : String × Doc) (ps : List (String × Doc)) :
    phase_field (add_det_fold (p :: ps) []) "validate" "deterministic_transforms"
      = some (.list ((List.range (p :: ps).length).map det_ref)) := by
  have hfirst : add_det_fold (p :: ps) []
      = add_det_fold ps (det_state [.map (mk_item p.1 p.2)] [det_ref 0]) := by
    simp only [add_det_fold, List.foldl_cons, add_det_first]
  rw [hfirst]
  obtain ⟨its, hlen, heq⟩ := add_det_fold_state ps [.map (mk_item p.1 p.2)] [det_ref 0]
  rw [heq]
  show some _ = _
  congr 1
  congr 1
  simp only [List.length_singleton, List.length_cons, List.range_eq_range',
    List.range'_succ, List.map_cons, List.singleton_append, List.length_nil]

/-- C4: each finalize step's assertion message enumerates exactly the check
keys absent from that phase's subtree at build time, in `_check_keys` order
— every missing key, not just the first.  (`preprocessing` and
`postprocessing` are injected by the finalize step itself before the check,
so only the remaining six keys of each phase can be missing.) -/
theorem missing_keys_enumerated (d c m : Doc) :
    (lookup d "train" = some (.map m) →
      (set_train_section d c).2
        = ["dataset", "dataloader", "handlers", "key_metric", "trainer", "inferer"].filter
            (fun k => !(is_exist_node m k))) ∧
    (lookup d "validate" = some (.map m) →
      (set_validate_section d c).2
        = ["dataset", "dataloader", "handlers", "key_metric", "evaluator", "inferer"].filter
            (fun k => !(is_exist_node m k))) := by
  constructor
  · intro h
    have e1 := is_exist_finalize_train_other m "dataset"
      (by decide) (by decide) (by decide) (by decide) (by decide)
    have e2 := is_exist_finalize_train_other m "dataloader"
      (by decide) (by decide) (by decide) (by decide) (by decide)
    have e3 := is_exist_finalize_train_other m "handlers"
      (by decide) (by decide) (by decide) (by decide) (by decide)
    have e4 := is_exist_finalize_train_other m "key_metric"
      (by decide) (by decide) (by decide) (by decide) (by decide)
    have e5 := is_exist_finalize_train_other m "trainer"
      (by decide) (by decide) (by decide) (by decide) (by decide)
    have e6 := is_exist_finalize_train_other m "inferer"
      (by decide) (by decide) (by decide) (by decide) (by decide)
    simp only [set_train_section, h, missing_keys, train_check_keys, List.filter_cons,
      List.filter_nil, is_exist_finalize_train_pre m, is_exist_finalize_train_post m,
      e1, e2, e3, e4, e5, e6, Bool.not_true, Bool.false_eq_true, if_false]
  · intro h
    have e1 := is_exist_finalize_validate_other m "dataset"
      (by decide) (by decide) (by decide) (by decide)
    have e2 := is_exist_finalize_validate_other m "dataloader"
      (by decide) (by decide) (by decide) (by decide)
    have e3 := is_exist_finalize_validate_other m "handlers"
      (by decide) (by decide) (by decide) (by decide)
    have e4 := is_exist_finalize_validate_other m "key_metric"
      (by decide) (by decide) (by decide) (by decide)
    have e5 := is_exist_finalize_validate_other m "evaluator"
      (by decide) (by decide) (by decide) (by decide)
    have e6 := is_exist_finalize_validate_other m "inferer"
      (by decide) (by decide) (by decide) (by decide)
    simp only [set_validate_section, h, missing_keys, validate_check_keys, List.filter_cons,
      List.filter_nil, is_exist_finalize_validate_pre m, is_exist_finalize_validate_post m,
      e1, e2, e3, e4, e5, e6, Bool.not_true, Bool.false_eq_true, if_false]

/-- C4 witness: a document whose train and validate subtrees each hold
exactly `dataset`, `dataloader`, `handlers` and `inferer`; the train error
names exactly `key_metric` and `trainer`, the validate error exactly
`key_metric` and `evaluator`. -/
theorem missing_keys_enumerated_witness :
    (set_train_section
        [("train", .map [("dataset", .map []), ("dataloader", .map []),
            ("handlers", .list []), ("inferer", .map [])]),
         ("validate", .map [("dataset", .map []), ("dataloader", .map []),
            ("handlers", .list []), ("inferer", .map [])])] []).2
      = ["key_metric", "trainer"] ∧
    (set_validate_section
        [("train", .map [("dataset", .map []), ("dataloader", .map []),
            ("handlers", .list []), ("inferer", .map [])]),
         ("validate", .map [("dataset", .map []), ("dataloader", .map []),
            ("handlers", .list []), ("inferer", .map [])])] []).2
      = ["key_metric", "evaluator"] := by
  have h := missing_keys_enumerated
    [("train", .map [("dataset", .map []), ("dataloader", .map []),
        ("handlers", .list []), ("inferer", .map [])]),
     ("validate", .map [("dataset", .map []), ("dataloader", .map []),
        ("handlers", .list []), ("inferer", .map [])])] []
    [("dataset", .map []), ("dataloader", .map []), ("handlers", .list []), ("inferer", .map [])]
  constructor
  · rw [h.1 rfl]; rfl
  · rw [h.2 rfl]; rfl

/-- C6: `set_train_section` unconditionally overwrites `train.preprocessing`
with the composed `Compose` item referencing the concatenation of
`train.deterministic_transforms` and `train.random_transforms` — for any
prior value (including a manually set sentinel), the composed item is in its
place afterwards. -/
theorem set_train_overwrites_preprocessing (d c m : Doc)
    (h : lookup d "train" = some (.map m)) :
    ∃ t', lookup (set_train_section d c).1 "train" = some (.map t') ∧
      lookup t' "preprocessing" = some train_preprocessing_item := by
  refine ⟨finalize_train_map m, ?_, ?_⟩
  · simp only [set_train_section, h, lookup_setKey_self]
  · unfold finalize_train_map
    rw [lookup_setKey_ne _ _ _ _ (by decide), lookup_setKey_ne _ _ _ _ (by decide),
      lookup_setKey_self]

/-- C6 witness: a sentinel value under `train.preprocessing` is replaced by
the composed item. -/
theorem set_train_overwrites_preprocessing_witness :
    ∃ t', lookup (set_train_section
        [("train", .map [("preprocessing", .str "SENTINEL")])] []).1 "train"
      = some (.map t') ∧
      lookup t' "preprocessing" = some train_preprocessing_item :=
  set_train_overwrites_preprocessing
    [("train", .map [("preprocessing", .str "SENTINEL")])] []
    [("preprocessing", .str "SENTINEL")] rfl

/-- C7 counterexample: `set_train_section` does not leave a pre-existing
non-empty `train.additional_metrics` unchanged — the source sets
`additional_metrics` to an empty list unconditionally (no `is_exist_node`
guard, unlike `set_validate_section`), so the prior content `["x"]` is
replaced by `[]`. -/
theorem finalize_train_metrics_counterexample :
    phase_field (set_train_section
        [("train", .map [("additional_metrics", .list [.str "x"]),
            ("dataset", .map []), ("dataloader", .map []), ("handlers", .list []),
            ("key_metric", .map []), ("trainer", .map []), ("inferer", .map [])])] []).1
        "train" "additional_metrics"
      = some (.list []) ∧
    phase_field
        [("train", .map [("additional_metrics", .list [.str "x"]),
            ("dataset", .map []), ("dataloader", .map []), ("handlers", .list []),
            ("key_metric", .map []), ("trainer", .map []), ("inferer", .map [])])]
        "train" "additional_metrics"
      = some (.list [.str "x"]) ∧
    some (Value.list []) ≠ some (Value.list [.str "x"]) := by
  refine ⟨rfl, rfl, ?_⟩
  simp

/-- C7 (amended): `set_train_section` defaults `deterministic_transforms`
and `random_transforms` to an empty sequence only when absent, preserving
existing content; `additional_metrics`, however, is set to an empty sequence
unconditionally, overwriting any existing content (only the validate
finalizer guards it). -/
theorem finalize_train_defaults (d c m : Doc)
    (h : lookup d "train" = some (.map m)) :
    ∃ t', lookup (set_train_section d c).1 "train" = some (.map t') ∧
      (∀ v, lookup m "deterministic_transforms" = some v →
        lookup t' "deterministic_transforms" = some v) ∧
      (lookup m "deterministic_transforms" = none →
        lookup t' "deterministic_transforms" = some (.list [])) ∧
      (∀ v, lookup m "random_transforms" = some v →
        lookup t' "random_transforms" = some v) ∧
      (lookup m "random_transforms" = none →
        lookup t' "random_transforms" = some (.list [])) ∧
      lookup t' "additional_metrics" = some (.list []) := by
  refine ⟨finalize_train_map m, ?_, ?_, ?_, ?_, ?_, ?_⟩
  · simp only [set_train_section, h, lookup_setKey_self]
  · intro v hv
    unfold finalize_train_map
    rw [lookup_setKey_ne _ _ _ _ (by decide), lookup_setKey_ne _ _ _ _ (by decide),
      lookup_setKey_ne _ _ _ _ (by decide), lookup_ensure_list_ne _ _ _ (by decide)]
    exact lookup_ensure_list_present m _ _ hv
  · intro hv
    unfold finalize_train_map
    rw [lookup_setKey_ne _ _ _ _ (by decide), lookup_setKey_ne _ _ _ _ (by decide),
      lookup_setKey_ne _ _ _ _ (by decide), lookup_ensure_list_ne _ _ _ (by decide)]
    exact lookup_ensure_list_absent m _ hv
  · intro v hv
    unfold finalize_train_map
    rw [lookup_setKey_ne _ _ _ _ (by decide), lookup_setKey_ne _ _ _ _ (by decide),
      lookup_setKey_ne _ _ _ _ (by decide)]
    exact lookup_ensure_list_present _ _ _
      (by rw [lookup_ensure_list_ne _ _ _ (by decide)]; exact hv)
  · intro hv
    unfold finalize_train_map
    rw [lookup_setKey_ne _ _ _ _ (by decide), lookup_setKey_ne _ _ _ _ (by decide),
      lookup_setKey_ne _ _ _ _ (by decide)]
    exact lookup_ensure_list_absent _ _
      (by rw [lookup_ensure_list_ne _ _ _ (by decide)]; exact hv)
  · exact lookup_setKey_self _ _ _

/-- C7 amended-theorem witness: train holds `deterministic_transforms =
["D"]` (preserved), no `random_transforms` (defaulted to `[]`), and
`additional_metrics = ["x"]` (overwritten to `[]`). -/
theorem finalize_train_defaults_witness :
    ∃ t', lookup (set_train_section
        [("train", .map [("deterministic_transforms", .list [.str "D"]),
            ("additional_metrics", .list [.str "x"])])] []).1 "train"
      = some (.map t') ∧
      (∀ v, lookup [("deterministic_transforms", Value.list [.str "D"]),
          ("additional_metrics", Value.list [.str "x"])] "deterministic_transforms" = some v →
        lookup t' "deterministic_transforms" = some v) ∧
      (lookup [("deterministic_transforms", Value.list [.str "D"]),
          ("additional_metrics", Value.list [.str "x"])] "deterministic_transforms" = none →
        lookup t' "deterministic_transforms" = some (.list [])) ∧
      (∀ v, lookup [("deterministic_transforms", Value.list [.str "D"]),
          ("additional_metrics", Value.list [.str "x"])] "random_transforms" = some v →
        lookup t' "random_transforms" = some v) ∧
      (lookup [("deterministic_transforms", Value.list [.str "D"]),
          ("additional_metrics", Value.list [.str "x"])] "random_transforms" = none →
        lookup t' "random_transforms" = some (.list [])) ∧
      lookup t' "additional_metrics" = some (.list []) :=
  finalize_train_defaults
    [("train", .map [("deterministic_transforms", .list [.str "D"]),
        ("additional_metrics", .list [.str "x"])])] []
    [("deterministic_transforms", .list [.str "D"]),
     ("additional_metrics", .list [.str "x"])] rfl

/-- C8: `add_random_transform` touches only the `train` key — any other
top-level key, in particular the whole `validate` subtree, is unchanged; and
over any sequence of calls the `validate` entry (whether absent or
pre-existing) is exactly preserved, so validate never acquires a
`random_transforms` key from it. -/
theorem add_random_transform_train_only (d : Doc) (name : String) (vargs : Doc)
    (ps : List (String × Doc)) :
    (∀ k, k ≠ "train" → lookup (add_random_transform d name vargs) k = lookup d k) ∧
    lookup (ps.foldl (fun a p => add_random_transform a p.1 p.2) d) "validate"
      = lookup d "validate" := by
  constructor
  · intro k hk
    unfold add_random_transform
    exact lookup_node_ne _ _ _ _ (Ne.symm hk)
  · induction ps generalizing d with
    | nil => rfl
    | cons p rest ih =>
        simp only [List.foldl_cons]
        rw [ih]
        unfold add_random_transform
        exact lookup_node_ne _ _ _ _ (by decide)

/-- C8 witness: concrete single call and two-call sequence on a document
with a pre-existing `validate` subtree. -/
theorem add_random_transform_train_only_witness :
    lookup (add_random_transform [("validate", .map [])] "R" []) "validate"
      = lookup [("validate", Value.map [])] "validate" ∧
    lookup ([("R", ([] : Doc)), ("S", ([] : Doc))].foldl
        (fun a p => add_random_transform a p.1 p.2) [("validate", .map [])]) "validate"
      = lookup [("validate", Value.map [])] "validate" := by
  have h := add_random_transform_train_only [("validate", .map [])] "R" []
    [("R", ([] : Doc)), ("S", ([] : Doc))]
  exact ⟨h.1 "validate" (by decide), h.2⟩

end Monaibuilder
